import Mathlib

/-!
Shallow embedding of the event-management backend: the Express route
handlers of `routes/events` (src/unnamed/part_000) and the Socket.IO
connection handler of `src/index.js`, together with the proofs of the
behavioural claims about them.

The Mongo-backed Event Store is modelled as a list of persisted events;
broadcast emissions that carry no state (the `io.emit` / `io.to(..).emit`
calls of the HTTP handlers) are outward side effects on the external
Broadcast Channel and are not part of the state we reason about, except
for the viewer-update emission of the socket `joinEvent` handler, which a
claim is about.
-/

namespace EventBackend

abbrev UserId := String
abbrev EvId := String

/-- Persisted Event document, after the mongoose schema accepted it
(fields of the schema in `models/Event`; `description` and `imageUrl`
are the two fields the create route treats as optional). -/
structure Event where
  _id : EvId
  title : String
  description : Option String
  date : String
  location : String
  category : String
  capacity : Int
  imageUrl : Option String
  creator : UserId
  attendees : List UserId
deriving Repr, DecidableEq

/-- Request body of `POST /` (create): the seven destructured fields, each
possibly absent. -/
structure CreateBody where
  title : Option String
  description : Option String
  date : Option String
  location : Option String
  category : Option String
  capacity : Option Int
  imageUrl : Option String
deriving Repr, DecidableEq

/-- Request body of `PUT /:id` (update): `Object.assign(event, req.body)`
overwrites exactly the fields present in the body. `_id` is not listed:
mongoose documents reject reassignment of the immutable `_id` path. -/
structure Patch where
  title : Option String := none
  description : Option String := none
  date : Option String := none
  location : Option String := none
  category : Option String := none
  capacity : Option Int := none
  imageUrl : Option String := none
  creator : Option UserId := none
  attendees : Option (List UserId) := none
deriving Repr, DecidableEq

/-- Response payloads the handlers serialize with `res.json`. -/
structure EventWithViewers where
  event : Event
  currentViewers : Nat
deriving Repr, DecidableEq

inductive Payload where
  | msg (m : String)
  | event (e : Event)
  | eventV (e : EventWithViewers)
  | nullPayload
deriving Repr, DecidableEq

/-- HTTP response: status code plus serialized body. -/
structure HttpResponse where
  status : Nat
  body : Payload
deriving Repr, DecidableEq

/-- Response of every `catch` block: `res.status(500).json(\x7b message: 'Server error' ... \x7d)`. -/
def genericServerError : HttpResponse := ⟨500, .msg "Server error"⟩

/-- Errors the Event Store can raise on a find: mongoose raises a cast
error with `kind = 'ObjectId'` when the identifier is malformed. -/
inductive DbError where
  | castObjectId
deriving Repr, DecidableEq

def dbErrKind : DbError → String
  | .castObjectId => "ObjectId"

def isHexChar (c : Char) : Bool :=
  (Char.ofNat 48 ≤ c && c ≤ Char.ofNat 57) ||
  (Char.ofNat 97 ≤ c && c ≤ Char.ofNat 102) ||
  (Char.ofNat 65 ≤ c && c ≤ Char.ofNat 70)

/-- Modelled from the spec: Event ids are opaque server-generated Mongo
ObjectIds; a well-formed id string is 24 hexadecimal characters, and the
store rejects a malformed identifier with a cast error of kind ObjectId. -/
def isValidObjectId (s : String) : Bool :=
  s.data.length == 24 && s.data.all isHexChar

/-- The Event Store: the persisted Event documents. -/
abbrev EventStore := List Event

/-- Lookup of a persisted document by `_id` (the store-level read behind
`Event.findById` once the id has been cast). -/
def findByIdInStore (store : EventStore) (id : EvId) : Option Event :=
  store.find? (fun x => x._id == id)

/-- `Event.findById(id)`: cast error on a malformed id, otherwise the
document with that `_id`, when present. -/
def dbFindById (store : EventStore) (id : String) : Except DbError (Option Event) :=
  if isValidObjectId id then .ok (findByIdInStore store id) else .error .castObjectId

/-- `Event.findOne(\x7b _id: id, creator: userId \x7d)`. -/
def dbFindByIdAndCreator (store : EventStore) (id : String) (userId : UserId) :
    Except DbError (Option Event) :=
  if isValidObjectId id then
    .ok (store.find? (fun x => x._id == id && x.creator == userId))
  else .error .castObjectId

/-- `document.save()`: replaces the stored document with the same `_id`,
or inserts the document when it is new. -/
def saveEvent (store : EventStore) (e : Event) : EventStore :=
  if store.any (fun x => x._id == e._id) then
    store.map (fun x => if x._id == e._id then e else x)
  else store ++ [e]

/-- Removes the first document matching the filter (`findOneAndDelete`). -/
def eraseFirstMatch (store : EventStore) (p : Event → Bool) : EventStore :=
  match store with
  | [] => []
  | x :: xs => if p x then xs else x :: eraseFirstMatch xs p

/-- Presence Registry: the Socket.IO adapter's room table, mapping each
room id to the set of subscribed connections (kept as a duplicate-free
list). -/
abbrev ConnId := Nat
abbrev Room := String
abbrev Registry := List (Room × List ConnId)

def regSubscribers (reg : Registry) (room : Room) : List ConnId :=
  match reg with
  | [] => []
  | (r, cs) :: rest => if r == room then cs else regSubscribers rest room

/-- `rooms.get(room)?.size || 0`. -/
def regCount (reg : Registry) (room : Room) : Nat :=
  (regSubscribers reg room).length

/-- `socket.join(room)`: adds the connection to the room's subscriber set;
re-joining an already-joined connection has no additional effect. -/
def regJoin (reg : Registry) (room : Room) (c : ConnId) : Registry :=
  match reg with
  | [] => [(room, [c])]
  | (r, cs) :: rest =>
    if r == room then (r, if cs.contains c then cs else cs ++ [c]) :: rest
    else (r, cs) :: regJoin rest room c

/-- Payload of the `viewerUpdate` broadcast of `src/index.js`. -/
structure ViewerUpdate where
  eventId : Room
  viewers : Nat
  timestamp : Nat
deriving Repr, DecidableEq

/-- Socket handler for the `joinEvent` signal (`src/index.js` lines 53-66):
join the room, read the viewer count of the updated room table, emit
`viewerUpdate` to the room. Returns the new registry and the list of
room-scoped emissions. -/
def handleJoinEvent (reg : Registry) (c : ConnId) (eventId : Room) (now : Nat) :
    Registry × List (Room × ViewerUpdate) :=
  let reg2 := regJoin reg eventId c
  let viewers := regCount reg2 eventId
  (reg2, [(eventId, ⟨eventId, viewers, now⟩)])

/-- `GET /:id`: fetch the event; 404 when absent, 404 when the id is
malformed (cast error of kind ObjectId), 500 on any other store error;
on success augment with the room's current viewer count, broadcast the
augmented object to room `id`, and return it. Result: response and the
room-scoped emissions. -/
def getEventById (store : EventStore) (reg : Registry) (id : String) :
    HttpResponse × List (Room × Payload) :=
  match dbFindById store id with
  | .error err =>
    if dbErrKind err == "ObjectId" then (⟨404, .msg "Event not found"⟩, [])
    else (genericServerError, [])
  | .ok none => (⟨404, .msg "Event not found"⟩, [])
  | .ok (some e) =>
    let ev : EventWithViewers := ⟨e, regCount reg id⟩
    (⟨200, .eventV ev⟩, [(id, .eventV ev)])

/-- `POST /` (create): destructure the body, build the document with
`creator = userId` and `attendees = [userId]`, save, re-fetch by the new
id, respond 201 with the populated event. A document missing a required
field (title, date, location, category, capacity - Modelled from the
spec: the mongoose schema in `models/Event`, not among the sources,
marks exactly these five as required) makes `save()` throw a validation
error, which the generic `catch` turns into the 500 `Server error`
response. `newId` is the server-generated fresh ObjectId. -/
def createEvent (store : EventStore) (body : CreateBody) (userId : UserId) (newId : EvId) :
    EventStore × HttpResponse :=
  match body.title, body.date, body.location, body.category, body.capacity with
  | some t, some d, some l, some c, some cap =>
    let e : Event :=
      ⟨newId, t, body.description, d, l, c, cap, body.imageUrl, userId, [userId]⟩
    let store2 := saveEvent store e
    match findByIdInStore store2 newId with
    | some pe => (store2, ⟨201, .event pe⟩)
    | none => (store2, ⟨201, .nullPayload⟩)
  | _, _, _, _, _ => (store, genericServerError)

/-- `Object.assign(event, req.body)`: shallow overwrite of the fields
present in the patch. -/
def applyPatch (e : Event) (p : Patch) : Event :=
  { e with
    title := p.title.getD e.title
    description := p.description.or e.description
    date := p.date.getD e.date
    location := p.location.getD e.location
    category := p.category.getD e.category
    capacity := p.capacity.getD e.capacity
    imageUrl := p.imageUrl.or e.imageUrl
    creator := p.creator.getD e.creator
    attendees := p.attendees.getD e.attendees }

/-- `PUT /:id` (update): find the event owned by the caller (404
`Event not found or unauthorized` otherwise), apply the patch, save,
respond with the updated event. The `catch` has no ObjectId check, so a
malformed id surfaces as the 500 response. -/
def updateEvent (store : EventStore) (id : String) (userId : UserId) (p : Patch) :
    EventStore × HttpResponse :=
  match dbFindByIdAndCreator store id userId with
  | .error _ => (store, genericServerError)
  | .ok none => (store, ⟨404, .msg "Event not found or unauthorized"⟩)
  | .ok (some e) =>
    let e2 := applyPatch e p
    (saveEvent store e2, ⟨200, .event e2⟩)

/-- `DELETE /:id`: `findOneAndDelete(\x7b _id, creator \x7d)`; 404
`Event not found or unauthorized` when no document matches, 500 via the
generic `catch` on a malformed id. -/
def deleteEvent (store : EventStore) (id : String) (userId : UserId) :
    EventStore × HttpResponse :=
  if isValidObjectId id then
    match store.find? (fun x => x._id == id && x.creator == userId) with
    | none => (store, ⟨404, .msg "Event not found or unauthorized"⟩)
    | some _ =>
      (eraseFirstMatch store (fun x => x._id == id && x.creator == userId),
       ⟨200, .msg "Event deleted successfully"⟩)
  else (store, genericServerError)

/-- `POST /:id/join`: 404 when absent; 400 `Already joined this event`
when the caller is among the attendees; 400 `Event is full` when
`attendees.length >= capacity`; otherwise push the caller, save,
re-fetch, respond 200 with the updated event. The `catch` has no
ObjectId check, so a malformed id surfaces as the 500 response. -/
def joinEvent (store : EventStore) (id : String) (userId : UserId) :
    EventStore × HttpResponse :=
  match dbFindById store id with
  | .error _ => (store, genericServerError)
  | .ok none => (store, ⟨404, .msg "Event not found"⟩)
  | .ok (some e) =>
    if e.attendees.any (fun a => a == userId) then
      (store, ⟨400, .msg "Already joined this event"⟩)
    else if e.capacity ≤ (e.attendees.length : Int) then
      (store, ⟨400, .msg "Event is full"⟩)
    else
      let e2 := { e with attendees := e.attendees ++ [userId] }
      let store2 := saveEvent store e2
      match findByIdInStore store2 id with
      | some u => (store2, ⟨200, .event u⟩)
      | none => (store2, ⟨200, .nullPayload⟩)

/-- `POST /:id/leave`: 404 when absent; 400 `Not joined this event` when
the caller is not among the attendees; otherwise filter the caller out of
the attendees, save, re-fetch, respond 200 with the updated event. -/
def leaveEvent (store : EventStore) (id : String) (userId : UserId) :
    EventStore × HttpResponse :=
  match dbFindById store id with
  | .error _ => (store, genericServerError)
  | .ok none => (store, ⟨404, .msg "Event not found"⟩)
  | .ok (some e) =>
    if !(e.attendees.any (fun a => a == userId)) then
      (store, ⟨400, .msg "Not joined this event"⟩)
    else
      let e2 := { e with attendees := e.attendees.filter (fun a => a != userId) }
      let store2 := saveEvent store e2
      match findByIdInStore store2 id with
      | some u => (store2, ⟨200, .event u⟩)
      | none => (store2, ⟨200, .nullPayload⟩)

/-! Concrete fixtures used by the witnesses below. -/

def exIdA : EvId := "aaaaaaaaaaaaaaaaaaaaaaaa"
def exIdB : EvId := "bbbbbbbbbbbbbbbbbbbbbbbb"

/-- An event of capacity 2 whose creator u1 is the sole attendee. -/
def exEvent : Event :=
  ⟨exIdA, "T", none, "2025-01-01", "L", "C", 2, none, "u1", ["u1"]⟩

/-- An event of capacity 1 that is exactly full. -/
def exEventFull : Event :=
  ⟨exIdA, "T", none, "2025-01-01", "L", "C", 1, none, "u1", ["u1"]⟩

/-- A create body with every required field present and capacity 0. -/
def exBodyCapZero : CreateBody :=
  ⟨some "T", none, some "2025-01-01", some "L", some "C", some 0, none⟩

/-- A create body missing the required title. -/
def exBodyNoTitle : CreateBody :=
  ⟨none, none, some "2025-01-01", some "L", some "C", some 5, none⟩

/-- A patch that rewrites the creator field. -/
def exPatchCreator : Patch := { creator := some "u2" }

/-- A patch that touches only the title. -/
def exPatchTitle : Patch := { title := some "T2" }

/-! Store-level helper lemmas. -/

theorem find?_id_map_replace (store : List Event) (id : EvId) (e' : Event)
    (hid : e'._id = id) (hex : ∃ x ∈ store, x._id = id) :
    List.find? (fun y => y._id == id)
      (store.map (fun x => if x._id == e'._id then e' else x)) = some e' := by
  induction store with
  | nil => obtain ⟨x, hx, _⟩ := hex; exact absurd hx (List.not_mem_nil x)
  | cons x xs ih =>
    by_cases hx : x._id = id
    · have hbeq : (x._id == e'._id) = true := by rw [hid, hx]; exact beq_self_eq_true id
      simp only [List.map_cons, hbeq, if_true, List.find?_cons]
      have : (e'._id == id) = true := by rw [hid]; exact beq_self_eq_true id
      simp [this]
    · have hbeq : (x._id == e'._id) = false := by
        rw [hid]; exact beq_eq_false_iff_ne.mpr hx
      simp only [List.map_cons, hbeq, Bool.false_eq_true, if_false, List.find?_cons]
      have hxid : (x._id == id) = false := beq_eq_false_iff_ne.mpr hx
      simp only [hxid]
      apply ih
      obtain ⟨y, hy, hyid⟩ := hex
      rcases List.mem_cons.mp hy with h | h
      · exact absurd (h ▸ hyid) hx
      · exact ⟨y, h, hyid⟩

theorem findByIdInStore_saveEvent (store : EventStore) (id : EvId) (e e' : Event)
    (h : findByIdInStore store id = some e) (hid : e'._id = e._id) :
    findByIdInStore (saveEvent store e') id = some e' := by
  have hmem : e ∈ store := List.mem_of_find?_eq_some h
  have heid : e._id = id := by
    have := List.find?_some h
    exact beq_iff_eq.mp this
  have hany : store.any (fun x => x._id == e'._id) = true := by
    rw [List.any_eq_true]
    exact ⟨e, hmem, by rw [hid]; exact beq_self_eq_true e._id⟩
  unfold saveEvent
  rw [hany, if_pos rfl]
  exact find?_id_map_replace store id e' (hid.trans heid) ⟨e, hmem, heid⟩

theorem find?_id_append_new (store : List Event) (id : EvId) (e : Event)
    (hfresh : ∀ x ∈ store, x._id ≠ id) (he : e._id = id) :
    List.find? (fun y => y._id == id) (store ++ [e]) = some e := by
  induction store with
  | nil =>
    simp only [List.nil_append, List.find?_cons]
    have : (e._id == id) = true := by rw [he]; exact beq_self_eq_true id
    simp [this]
  | cons x xs ih =>
    have hx : (x._id == id) = false :=
      beq_eq_false_iff_ne.mpr (hfresh x (List.mem_cons_self x xs))
    simp only [List.cons_append, List.find?_cons, hx]
    exact ih (fun y hy => hfresh y (List.mem_cons_of_mem x hy))

theorem saveEvent_fresh (store : EventStore) (e : Event)
    (hfresh : ∀ x ∈ store, x._id ≠ e._id) :
    saveEvent store e = store ++ [e] := by
  unfold saveEvent
  have hany : store.any (fun x => x._id == e._id) = false := by
    rw [Bool.eq_false_iff]
    intro hc
    obtain ⟨x, hx, hbeq⟩ := List.any_eq_true.mp hc
    exact hfresh x hx (beq_iff_eq.mp hbeq)
  rw [hany]
  simp

theorem mem_saveEvent_exists_creator (store : EventStore) (e e' : Event)
    (he : e ∈ store) (hid : e'._id = e._id) (hcr : e'.creator = e.creator) :
    ∀ x ∈ saveEvent store e', ∃ y, y ∈ store ∧ y._id = x._id ∧ y.creator = x.creator := by
  intro x hx
  unfold saveEvent at hx
  by_cases hany : store.any (fun z => z._id == e'._id) = true
  · rw [hany, if_pos rfl] at hx
    obtain ⟨y, hy, hxy⟩ := List.mem_map.mp hx
    by_cases hb : (y._id == e'._id) = true
    · rw [if_pos hb] at hxy
      exact ⟨e, he, by rw [← hxy, hid], by rw [← hxy, hcr]⟩
    · rw [if_neg hb] at hxy
      exact ⟨y, hy, by rw [hxy], by rw [hxy]⟩
  · rw [Bool.eq_false_iff.mpr hany] at hx
    simp only [Bool.false_eq_true, if_false] at hx
    rcases List.mem_append.mp hx with h | h
    · exact ⟨x, h, rfl, rfl⟩
    · have : x = e' := List.mem_singleton.mp h
      exact ⟨e, he, by rw [this, hid], by rw [this, hcr]⟩

/-- C1: for an event with capacity C whose attendees do not contain the
caller, join succeeds (responds 200) exactly while the attendee count is
below C, and once the count has reached C it fails with the 400
`Event is full` response, leaving the store - hence the attendees list -
unchanged. -/
theorem join_respects_capacity (store : EventStore) (id : EvId) (userId : UserId) (e : Event)
    (hvalid : isValidObjectId id = true)
    (hfind : findByIdInStore store id = some e)
    (hmem : userId ∉ e.attendees) :
    (((e.attendees.length : Int) < e.capacity) ↔ (joinEvent store id userId).2.status = 200) ∧
    (e.capacity ≤ (e.attendees.length : Int) →
      joinEvent store id userId = (store, ⟨400, .msg "Event is full"⟩)) := by
  have hany : e.attendees.any (fun a => a == userId) = false := by
    rw [Bool.eq_false_iff]
    intro hc
    obtain ⟨a, ha, hab⟩ := List.any_eq_true.mp hc
    exact hmem (beq_iff_eq.mp hab ▸ ha)
  have hdb : dbFindById store id = .ok (some e) := by
    unfold dbFindById; rw [hvalid, if_pos rfl, hfind]
  constructor
  · constructor
    · intro hlt
      have hnle : ¬ e.capacity ≤ (e.attendees.length : Int) := not_le.mpr hlt
      simp only [joinEvent, hdb, hany, Bool.false_eq_true, if_false, hnle]
      split <;> rfl
    · intro h200
      by_contra hnlt
      have hle : e.capacity ≤ (e.attendees.length : Int) := not_lt.mp hnlt
      simp only [joinEvent, hdb, hany, Bool.false_eq_true, if_false, hle, if_true] at h200
      exact absurd h200 (by norm_num)
  · intro hle
    simp only [joinEvent, hdb, hany, Bool.false_eq_true, if_false, hle, if_true]

/-- C1 witness: on a full capacity-1 event, join by a fresh caller is the
`Event is full` failure with the store unchanged. -/
theorem join_respects_capacity_witness :
    (((exEventFull.attendees.length : Int) < exEventFull.capacity) ↔
      (joinEvent [exEventFull] exIdA "u3").2.status = 200) ∧
    (exEventFull.capacity ≤ (exEventFull.attendees.length : Int) →
      joinEvent [exEventFull] exIdA "u3" = ([exEventFull], ⟨400, .msg "Event is full"⟩)) :=
  join_respects_capacity [exEventFull] exIdA "u3" exEventFull (by decide) rfl (by decide)

/-- C2: join by a caller already among the attendees fails with the 400
`Already joined this event` response and leaves the store unchanged. -/
theorem join_already_joined (store : EventStore) (id : EvId) (userId : UserId) (e : Event)
    (hvalid : isValidObjectId id = true)
    (hfind : findByIdInStore store id = some e)
    (hmem : userId ∈ e.attendees) :
    joinEvent store id userId = (store, ⟨400, .msg "Already joined this event"⟩) := by
  have hdb : dbFindById store id = .ok (some e) := by
    unfold dbFindById; rw [hvalid, if_pos rfl, hfind]
  have hany : e.attendees.any (fun a => a == userId) = true :=
    List.any_eq_true.mpr ⟨userId, hmem, beq_self_eq_true userId⟩
  simp only [joinEvent, hdb, hany, if_true]

/-- C2 witness: a second join by the creator of the fixture event yields
`Already joined this event` with the store unchanged. -/
theorem join_already_joined_witness :
    joinEvent [exEvent] exIdA "u1" = ([exEvent], ⟨400, .msg "Already joined this event"⟩) :=
  join_already_joined [exEvent] exIdA "u1" exEvent (by decide) rfl (by decide)

/-- C3: a successful create persists an Event whose creator is the caller
and whose attendees list is exactly the singleton caller, and a
subsequent getById responds 200 with that event. -/
theorem create_sets_creator_and_attendees (store : EventStore) (reg : Registry)
    (body : CreateBody) (userId : UserId) (newId : EvId)
    (t d l c : String) (cap : Int) (bdesc bim : Option String)
    (hbody : body = ⟨some t, bdesc, some d, some l, some c, some cap, bim⟩)
    (hvalid : isValidObjectId newId = true)
    (hfresh : ∀ x ∈ store, x._id ≠ newId) :
    ∃ e2 : Event,
      findByIdInStore (createEvent store body userId newId).1 newId = some e2 ∧
      e2.creator = userId ∧ e2.attendees = [userId] ∧
      (getEventById (createEvent store body userId newId).1 reg newId).1 =
        ⟨200, .eventV ⟨e2, regCount reg newId⟩⟩ := by
  subst hbody
  have hsave : saveEvent store ⟨newId, t, bdesc, d, l, c, cap, bim, userId, [userId]⟩ =
      store ++ [⟨newId, t, bdesc, d, l, c, cap, bim, userId, [userId]⟩] :=
    saveEvent_fresh store _ hfresh
  have hf2 : findByIdInStore
      (store ++ [⟨newId, t, bdesc, d, l, c, cap, bim, userId, [userId]⟩]) newId =
      some ⟨newId, t, bdesc, d, l, c, cap, bim, userId, [userId]⟩ :=
    find?_id_append_new store newId _ hfresh rfl
  have hcreate : createEvent store ⟨some t, bdesc, some d, some l, some c, some cap, bim⟩
      userId newId =
      (store ++ [⟨newId, t, bdesc, d, l, c, cap, bim, userId, [userId]⟩],
       ⟨201, .event ⟨newId, t, bdesc, d, l, c, cap, bim, userId, [userId]⟩⟩) := by
    simp only [createEvent, hsave, hf2]
  refine ⟨⟨newId, t, bdesc, d, l, c, cap, bim, userId, [userId]⟩, ?_, rfl, rfl, ?_⟩
  · rw [hcreate]; exact hf2
  · rw [hcreate]
    have hdb : dbFindById
        (store ++ [⟨newId, t, bdesc, d, l, c, cap, bim, userId, [userId]⟩]) newId =
        .ok (some ⟨newId, t, bdesc, d, l, c, cap, bim, userId, [userId]⟩) := by
      unfold dbFindById; rw [hvalid, if_pos rfl, hf2]
    simp only [getEventById, hdb]

/-- C3 witness: creating on an empty store and reading back the fresh id
yields the creator as sole attendee. -/
theorem create_sets_creator_and_attendees_witness :
    ∃ e2 : Event,
      findByIdInStore (createEvent [] exBodyCapZero "u1" exIdB).1 exIdB = some e2 ∧
      e2.creator = "u1" ∧ e2.attendees = ["u1"] ∧
      (getEventById (createEvent [] exBodyCapZero "u1" exIdB).1 [] exIdB).1 =
        ⟨200, .eventV ⟨e2, regCount [] exIdB⟩⟩ :=
  create_sets_creator_and_attendees [] [] exBodyCapZero "u1" exIdB
    "T" "2025-01-01" "L" "C" 0 none none rfl (by decide) (by simp)

/-- C10: create does not validate the capacity value: with every required
field present and capacity below 1 (for instance 0), create succeeds with
status 201 and the persisted event already has more attendees (the sole
creator) than its capacity. -/
theorem create_accepts_capacity_below_one (store : EventStore)
    (body : CreateBody) (userId : UserId) (newId : EvId)
    (t d l c : String) (cap : Int) (bdesc bim : Option String)
    (hbody : body = ⟨some t, bdesc, some d, some l, some c, some cap, bim⟩)
    (hlt : cap < 1)
    (hfresh : ∀ x ∈ store, x._id ≠ newId) :
    ∃ e2 : Event,
      (createEvent store body userId newId).2.status = 201 ∧
      findByIdInStore (createEvent store body userId newId).1 newId = some e2 ∧
      e2.attendees = [userId] ∧ e2.capacity = cap ∧
      e2.capacity < (e2.attendees.length : Int) := by
  subst hbody
  have hsave : saveEvent store ⟨newId, t, bdesc, d, l, c, cap, bim, userId, [userId]⟩ =
      store ++ [⟨newId, t, bdesc, d, l, c, cap, bim, userId, [userId]⟩] :=
    saveEvent_fresh store _ hfresh
  have hf2 : findByIdInStore
      (store ++ [⟨newId, t, bdesc, d, l, c, cap, bim, userId, [userId]⟩]) newId =
      some ⟨newId, t, bdesc, d, l, c, cap, bim, userId, [userId]⟩ :=
    find?_id_append_new store newId _ hfresh rfl
  have hcreate : createEvent store ⟨some t, bdesc, some d, some l, some c, some cap, bim⟩
      userId newId =
      (store ++ [⟨newId, t, bdesc, d, l, c, cap, bim, userId, [userId]⟩],
       ⟨201, .event ⟨newId, t, bdesc, d, l, c, cap, bim, userId, [userId]⟩⟩) := by
    simp only [createEvent, hsave, hf2]
  refine ⟨⟨newId, t, bdesc, d, l, c, cap, bim, userId, [userId]⟩, ?_, ?_, rfl, rfl, ?_⟩
  · rw [hcreate]
  · rw [hcreate]; exact hf2
  · simpa using hlt

/-- C10 witness: capacity 0 with all required fields present creates an
event with one attendee and capacity 0. -/
theorem create_accepts_capacity_below_one_witness :
    ∃ e2 : Event,
      (createEvent [] exBodyCapZero "u1" exIdB).2.status = 201 ∧
      findByIdInStore (createEvent [] exBodyCapZero "u1" exIdB).1 exIdB = some e2 ∧
      e2.attendees = ["u1"] ∧ e2.capacity = 0 ∧
      e2.capacity < (e2.attendees.length : Int) :=
  create_accepts_capacity_below_one [] exBodyCapZero "u1" exIdB
    "T" "2025-01-01" "L" "C" 0 none none rfl (by decide) (by simp)

/-- C4: delete by a caller who is not the creator of any stored event
with that id fails with the 404 `Event not found or unauthorized`
response (absence and authorization failure are indistinguishable), the
store is unchanged, and the event is still retrievable afterwards. -/
theorem delete_by_noncreator_preserves (store : EventStore) (id : EvId) (userId : UserId)
    (e : Event)
    (hvalid : isValidObjectId id = true)
    (hfind : findByIdInStore store id = some e)
    (hauth : ∀ x ∈ store, x._id = id → x.creator ≠ userId) :
    deleteEvent store id userId = (store, ⟨404, .msg "Event not found or unauthorized"⟩) ∧
    findByIdInStore (deleteEvent store id userId).1 id = some e := by
  have hnone : store.find? (fun x => x._id == id && x.creator == userId) = none := by
    rw [List.find?_eq_none]
    intro x hx
    simp only [Bool.and_eq_true, beq_iff_eq, not_and]
    exact fun h1 h2 => hauth x hx h1 h2
  have hdel : deleteEvent store id userId =
      (store, ⟨404, .msg "Event not found or unauthorized"⟩) := by
    simp only [deleteEvent, hvalid, if_true, hnone]
  exact ⟨hdel, by rw [hdel]; exact hfind⟩

/-- C4 witness: deleting the fixture event as the stranger u9 is refused
with 404 and the event is still found. -/
theorem delete_by_noncreator_preserves_witness :
    deleteEvent [exEvent] exIdA "u9" =
      ([exEvent], ⟨404, .msg "Event not found or unauthorized"⟩) ∧
    findByIdInStore (deleteEvent [exEvent] exIdA "u9").1 exIdA = some exEvent :=
  delete_by_noncreator_preserves [exEvent] exIdA "u9" exEvent (by decide) rfl (by decide)

/-- C8: leave by a caller not among the attendees fails with the 400
`Not joined this event` response and leaves the store unchanged;
otherwise it responds 200 and persists an event whose attendees are
exactly the previous ones with the caller filtered out, a sublist of the
previous attendees (relative order preserved). -/
theorem leave_removes_exactly_caller (store : EventStore) (id : EvId) (userId : UserId)
    (e : Event)
    (hvalid : isValidObjectId id = true)
    (hfind : findByIdInStore store id = some e) :
    (userId ∉ e.attendees →
      leaveEvent store id userId = (store, ⟨400, .msg "Not joined this event"⟩)) ∧
    (userId ∈ e.attendees →
      (leaveEvent store id userId).2.status = 200 ∧
      ∃ e2 : Event,
        findByIdInStore (leaveEvent store id userId).1 id = some e2 ∧
        e2.attendees = e.attendees.filter (fun a => a != userId) ∧
        e2.attendees.Sublist e.attendees ∧
        (∀ a, a ∈ e2.attendees ↔ (a ∈ e.attendees ∧ a ≠ userId)) ∧
        e2.creator = e.creator) := by
  have hdb : dbFindById store id = .ok (some e) := by
    unfold dbFindById; rw [hvalid, if_pos rfl, hfind]
  constructor
  · intro hmem
    have hany : e.attendees.any (fun a => a == userId) = false := by
      rw [Bool.eq_false_iff]
      intro hc
      obtain ⟨a, ha, hab⟩ := List.any_eq_true.mp hc
      exact hmem (beq_iff_eq.mp hab ▸ ha)
    simp only [leaveEvent, hdb, hany, Bool.not_false, if_true]
  · intro hmem
    have hany : e.attendees.any (fun a => a == userId) = true :=
      List.any_eq_true.mpr ⟨userId, hmem, beq_self_eq_true userId⟩
    have hf2 : findByIdInStore
        (saveEvent store { e with attendees := e.attendees.filter (fun a => a != userId) }) id =
        some { e with attendees := e.attendees.filter (fun a => a != userId) } :=
      findByIdInStore_saveEvent store id e _ hfind rfl
    have hleave : leaveEvent store id userId =
        (saveEvent store { e with attendees := e.attendees.filter (fun a => a != userId) },
         ⟨200, .event { e with attendees := e.attendees.filter (fun a => a != userId) }⟩) := by
      simp only [leaveEvent, hdb, hany, Bool.not_true, Bool.false_eq_true, if_false, hf2]
    refine ⟨by rw [hleave], ⟨{ e with attendees := e.attendees.filter (fun a => a != userId) },
      by rw [hleave]; exact hf2, rfl, List.filter_sublist e.attendees, ?_, rfl⟩⟩
    intro a
    simp only [List.mem_filter, bne_iff_ne, ne_eq]

/-- C8 witness: leave by a non-attendee is refused; leave by the sole
attendee u1 of the fixture event persists an empty attendees list. -/
theorem leave_removes_exactly_caller_witness :
    (("u9" : UserId) ∉ exEvent.attendees →
      leaveEvent [exEvent] exIdA "u9" = ([exEvent], ⟨400, .msg "Not joined this event"⟩)) ∧
    (("u9" : UserId) ∈ exEvent.attendees →
      (leaveEvent [exEvent] exIdA "u9").2.status = 200 ∧
      ∃ e2 : Event,
        findByIdInStore (leaveEvent [exEvent] exIdA "u9").1 exIdA = some e2 ∧
        e2.attendees = exEvent.attendees.filter (fun a => a != "u9") ∧
        e2.attendees.Sublist exEvent.attendees ∧
        (∀ a, a ∈ e2.attendees ↔ (a ∈ exEvent.attendees ∧ a ≠ "u9")) ∧
        e2.creator = exEvent.creator) :=
  leave_removes_exactly_caller [exEvent] exIdA "u9" exEvent (by decide) rfl

/-! Shape lemmas: the store an operation returns is either untouched or a
save of a single modified document taken from it. -/

theorem updateEvent_store_shape (store : EventStore) (id : EvId) (userId : UserId)
    (p : Patch) :
    (updateEvent store id userId p).1 = store ∨
    ∃ e, e ∈ store ∧ (updateEvent store id userId p).1 = saveEvent store (applyPatch e p) := by
  unfold updateEvent
  rcases hdb : dbFindByIdAndCreator store id userId with err | oe
  · left; simp
  · rcases oe with _ | e
    · left; simp
    · right
      refine ⟨e, ?_, by simp⟩
      unfold dbFindByIdAndCreator at hdb
      by_cases hv : isValidObjectId id = true
      · rw [hv, if_pos rfl] at hdb
        exact List.mem_of_find?_eq_some (Except.ok.inj hdb)
      · rw [Bool.not_eq_true] at hv
        rw [hv] at hdb
        simp at hdb

theorem joinEvent_store_shape (store : EventStore) (id : EvId) (userId : UserId) :
    (joinEvent store id userId).1 = store ∨
    ∃ e, e ∈ store ∧
      (joinEvent store id userId).1 =
        saveEvent store { e with attendees := e.attendees ++ [userId] } := by
  unfold joinEvent
  rcases hdb : dbFindById store id with err | oe
  · left; simp
  · rcases oe with _ | e
    · left; simp
    · have hmem : e ∈ store := by
        unfold dbFindById at hdb
        by_cases hv : isValidObjectId id = true
        · rw [hv, if_pos rfl] at hdb
          exact List.mem_of_find?_eq_some (Except.ok.inj hdb)
        · rw [Bool.not_eq_true] at hv
          rw [hv] at hdb
          simp at hdb
      by_cases hany : e.attendees.any (fun a => a == userId) = true
      · left; simp [hany]
      · rw [Bool.not_eq_true] at hany
        by_cases hcap : e.capacity ≤ (e.attendees.length : Int)
        · left; simp [hany, hcap]
        · right
          refine ⟨e, hmem, ?_⟩
          simp only [hany, Bool.false_eq_true, if_false, hcap]
          split <;> rfl

theorem leaveEvent_store_shape (store : EventStore) (id : EvId) (userId : UserId) :
    (leaveEvent store id userId).1 = store ∨
    ∃ e, e ∈ store ∧
      (leaveEvent store id userId).1 =
        saveEvent store { e with attendees := e.attendees.filter (fun a => a != userId) } := by
  unfold leaveEvent
  rcases hdb : dbFindById store id with err | oe
  · left; simp
  · rcases oe with _ | e
    · left; simp
    · have hmem : e ∈ store := by
        unfold dbFindById at hdb
        by_cases hv : isValidObjectId id = true
        · rw [hv, if_pos rfl] at hdb
          exact List.mem_of_find?_eq_some (Except.ok.inj hdb)
        · rw [Bool.not_eq_true] at hv
          rw [hv] at hdb
          simp at hdb
      by_cases hany : e.attendees.any (fun a => a == userId) = true
      · right
        refine ⟨e, hmem, ?_⟩
        simp only [hany, Bool.not_true, Bool.false_eq_true, if_false]
        split <;> rfl
      · rw [Bool.not_eq_true] at hany
        left; simp [hany]

/-- C5 counterexample: the creator is not immutable. The creator u1 of
the fixture event updates it with a patch whose body carries a creator
field, and the stored creator becomes u2. -/
theorem creator_overwritten_by_patch_cex :
    exEvent.creator = "u1" ∧
    Option.map Event.creator
      (findByIdInStore (updateEvent [exEvent] exIdA "u1" exPatchCreator).1 exIdA) =
      some "u2" := by
  decide

/-- C5 amended: update applies a shallow overwrite of every field present
in the patch, so a patch carrying a creator field rewrites the stored
creator; for any patch without a creator field, and for join and leave,
every event in the resulting store keeps the creator it had. -/
theorem creator_preserved_without_creator_patch (store : EventStore) (id : EvId)
    (userId : UserId) (p : Patch) (hp : p.creator = none) :
    (∀ x ∈ (updateEvent store id userId p).1,
      ∃ y, y ∈ store ∧ y._id = x._id ∧ y.creator = x.creator) ∧
    (∀ x ∈ (joinEvent store id userId).1,
      ∃ y, y ∈ store ∧ y._id = x._id ∧ y.creator = x.creator) ∧
    (∀ x ∈ (leaveEvent store id userId).1,
      ∃ y, y ∈ store ∧ y._id = x._id ∧ y.creator = x.creator) := by
  refine ⟨?_, ?_, ?_⟩
  · rcases updateEvent_store_shape store id userId p with hs | ⟨e, he, hs⟩
    · rw [hs]; exact fun x hx => ⟨x, hx, rfl, rfl⟩
    · rw [hs]
      exact mem_saveEvent_exists_creator store e (applyPatch e p) he rfl
        (by simp [applyPatch, hp])
  · rcases joinEvent_store_shape store id userId with hs | ⟨e, he, hs⟩
    · rw [hs]; exact fun x hx => ⟨x, hx, rfl, rfl⟩
    · rw [hs]
      exact mem_saveEvent_exists_creator store e _ he rfl rfl
  · rcases leaveEvent_store_shape store id userId with hs | ⟨e, he, hs⟩
    · rw [hs]; exact fun x hx => ⟨x, hx, rfl, rfl⟩
    · rw [hs]
      exact mem_saveEvent_exists_creator store e _ he rfl rfl

/-- C5 amended witness: with a title-only patch on the fixture store,
update, join and leave all preserve each stored creator. -/
theorem creator_preserved_without_creator_patch_witness :
    (∀ x ∈ (updateEvent [exEvent] exIdA "u1" exPatchTitle).1,
      ∃ y, y ∈ [exEvent] ∧ y._id = x._id ∧ y.creator = x.creator) ∧
    (∀ x ∈ (joinEvent [exEvent] exIdA "u1").1,
      ∃ y, y ∈ [exEvent] ∧ y._id = x._id ∧ y.creator = x.creator) ∧
    (∀ x ∈ (leaveEvent [exEvent] exIdA "u1").1,
      ∃ y, y ∈ [exEvent] ∧ y._id = x._id ∧ y.creator = x.creator) :=
  creator_preserved_without_creator_patch [exEvent] exIdA "u1" exPatchTitle rfl

/-- C6 counterexample: create with the required title missing does not
fail with a distinct validation outcome: it returns exactly the generic
catch-all 500 `Server error` response. -/
theorem create_validation_is_generic_cex :
    (createEvent [] exBodyNoTitle "u1" exIdB).2 = genericServerError ∧
    genericServerError.status = 500 ∧ genericServerError.body = .msg "Server error" := by
  decide

/-- C6 amended: create with any of the five required fields missing
fails, but the failure surfaces as the generic 500 `Server error`
response of the catch-all handler (the store is unchanged), not as a
distinct validation outcome. -/
theorem create_missing_required_generic_error (store : EventStore) (body : CreateBody)
    (userId : UserId) (newId : EvId)
    (hmiss : body.title = none ∨ body.date = none ∨ body.location = none ∨
      body.category = none ∨ body.capacity = none) :
    createEvent store body userId newId = (store, genericServerError) := by
  obtain ⟨bt, bdesc, bd, bl, bc, bcap, bim⟩ := body
  cases bt <;> cases bd <;> cases bl <;> cases bc <;> cases bcap <;>
    simp_all [createEvent]

/-- C6 amended witness: the concrete no-title body yields the generic 500
response on the empty store. -/
theorem create_missing_required_generic_error_witness :
    createEvent [] exBodyNoTitle "u1" exIdB = ([], genericServerError) :=
  create_missing_required_generic_error [] exBodyNoTitle "u1" exIdB (Or.inl rfl)

/-- C7 counterexample: a malformed identifier does not yield NotFound on
join: the join handler's catch lacks the ObjectId-kind check, so the
response is the generic 500, not 404. -/
theorem join_malformed_id_cex :
    (joinEvent [] "zz" "u1").2 = genericServerError ∧
    (joinEvent [] "zz" "u1").2.status ≠ 404 := by
  decide

/-- C7 amended: on a malformed identifier, getById answers 404
`Event not found` (its catch maps cast errors of kind ObjectId to 404),
while join answers the generic 500 `Server error` with the store
unchanged (its catch has no such check). -/
theorem malformed_id_getById_vs_join (store : EventStore) (reg : Registry) (id : String)
    (userId : UserId) (hmal : isValidObjectId id = false) :
    getEventById store reg id = (⟨404, .msg "Event not found"⟩, []) ∧
    joinEvent store id userId = (store, genericServerError) := by
  have hdb : dbFindById store id = .error .castObjectId := by
    unfold dbFindById; rw [hmal]; simp
  constructor
  · simp [getEventById, hdb, dbErrKind]
  · simp [joinEvent, hdb]

/-- C7 amended witness: the malformed id string zz gives 404 on getById
and the generic 500 on join. -/
theorem malformed_id_getById_vs_join_witness :
    getEventById [] [] "zz" = (⟨404, .msg "Event not found"⟩, []) ∧
    joinEvent [] "zz" "u1" = ([], genericServerError) :=
  malformed_id_getById_vs_join [] [] "zz" "u1" (by decide)

/-- C9: on a joinEvent signal the connection is added to the room's
subscriber set, and the handler emits to that room exactly one
viewerUpdate whose viewer count is the count of the room after the join
and whose timestamp is the current time. -/
theorem joinEvent_signal_adds_and_broadcasts (reg : Registry) (c : ConnId) (room : Room)
    (now : Nat) :
    c ∈ regSubscribers (handleJoinEvent reg c room now).1 room ∧
    (handleJoinEvent reg c room now).2 =
      [(room, ⟨room, regCount (handleJoinEvent reg c room now).1 room, now⟩)] := by
  refine ⟨?_, rfl⟩
  show c ∈ regSubscribers (regJoin reg room c) room
  induction reg with
  | nil => simp [regJoin, regSubscribers]
  | cons p rest ih =>
    obtain ⟨r, cs⟩ := p
    by_cases h : r = room
    · subst h
      simp only [regJoin, beq_self_eq_true, if_true, regSubscribers]
      by_cases hc : cs.contains c
      · simp only [hc, if_true]
        simpa [List.contains] using List.elem_iff.mp hc
      · simp only [hc, Bool.false_eq_true, if_false]
        exact List.mem_append.mpr (Or.inr (List.mem_singleton.mpr rfl))
    · have hb : (r == room) = false := beq_eq_false_iff_ne.mpr h
      simp only [regJoin, hb, Bool.false_eq_true, if_false, regSubscribers]
      exact ih

end EventBackend
